import Mathlib

/-!
Verification of the Vinya Phase-1 finance core (loan ledger, payment writer,
amortization engine, prepayment simulators).

Shallow embedding conventions:
* Python floats carrying currency amounts and rates are modelled as `ℚ`.
* Python `round(x, 2)` (round-half-to-even on the second decimal) is `round2`.
* `datetime.date` is `PyDate` (lexicographic comparison, as in Python).
* A month key `"YYYY-MM"` is `MonthKey`, rendered in its canonical
  zero-padded form by `MonthKey.toStr` (the form `date.isoformat` writes and
  the only form the spec admits for month keys).
* Raised exceptions become `Except FinErr`; an `Except.error` result models a
  Python `raise` that happens before any mutation, so the in-memory caller
  state is unchanged exactly when the embedded function returns `.error`.
* `str.startswith` is `pyStartsWith` (character-list comparison).
-/

/-- Round-half-to-even of a rational to an integer, as Python `round` does on
the exact value of its argument. -/
def roundHalfEven (q : ℚ) : ℤ :=
  if q - ⌊q⌋ < 1/2 then ⌊q⌋
  else if 1/2 < q - ⌊q⌋ then ⌊q⌋ + 1
  else if ⌊q⌋ % 2 = 0 then ⌊q⌋ else ⌊q⌋ + 1

/-- Python `round(x, 2)`: round to two decimal places, ties to even. -/
def round2 (q : ℚ) : ℚ := (roundHalfEven (q * 100) : ℚ) / 100

/-- Says that `q` is a whole number of hundredths (an exact 2-decimal currency value). -/
def isCent (q : ℚ) : Prop := ∃ k : ℤ, q = (k : ℚ) / 100

/-- Python `datetime.date`: compared lexicographically by (year, month, day). -/
structure PyDate where
  year : ℕ
  month : ℕ
  day : ℕ
deriving DecidableEq

/-- Strict `<` on dates, as Python compares `date` values. -/
def PyDate.ltb (a b : PyDate) : Bool :=
  if a.year ≠ b.year then a.year < b.year
  else if a.month ≠ b.month then a.month < b.month
  else a.day < b.day

/-- A `"YYYY-MM"` month key (canonical zero-padded form). -/
structure MonthKey where
  year : ℕ
  month : ℕ
deriving DecidableEq

/-- Two-digit zero padding for the month part of a month key. -/
def pad2 (n : ℕ) : String :=
  if n < 10 then "0" ++ toString n else toString n

/-- The canonical `"YYYY-MM"` string of a month key. -/
def MonthKey.toStr (mk : MonthKey) : String :=
  toString mk.year ++ "-" ++ pad2 mk.month

/-- Python `datetime.strptime(month_key + "-01", "%Y-%m-%d").date()`: the first
calendar day of the month. -/
def MonthKey.toDate (mk : MonthKey) : PyDate :=
  ⟨mk.year, mk.month, 1⟩

/-- The `List Char` version of Python `str.startswith`. -/
def charsStartWith (s pre : List Char) : Bool :=
  match pre, s with
  | [], _ => true
  | _ :: _, [] => false
  | c :: pre1, d :: s1 => c == d && charsStartWith s1 pre1

/-- Python `s.startswith(p)` on strings. -/
def pyStartsWith (s p : String) : Bool := charsStartWith s.data p.data

/-- A payment record `{date, amount, note}` as stored in the `payments` list of a loan; `date` is an ISO `"YYYY-MM-DD"` string. -/
structure Payment where
  date : String
  amount : ℚ
  note : String
deriving DecidableEq

/-- A loan record as stored in `finance.json`.  `tenure` and `emi` are only
present (`some`) for BANK loans, matching `add_loan`; `start_date` is `none`
when the stored value is absent or unparsable. -/
structure Loan where
  name : String
  principal : ℚ
  taken_amount : ℚ
  rate : ℚ
  loan_type : String
  interest_frequency : String
  start_date : Option PyDate
  tenure : Option ℤ
  emi : Option ℚ
  payments : List Payment
deriving DecidableEq

/-- The exceptions the finance core raises (Python uses `ValueError` with
distinct messages; the spec names them ValidationError, FutureDateError and
DuplicatePaymentError). -/
inductive FinErr where
  | futureStartDate
  | futureDate
  | duplicateEMI
deriving DecidableEq

/-- The loan dict constructed by `add_loan`: `taken_amount = principal`, empty
payment list; `tenure`/`emi` keys only for BANK loans. -/
def mkLoan (name : String) (principal rate : ℚ) (sd : PyDate)
    (tenure : Option ℤ) (emi : Option ℚ) (ltype freq : String) : Loan :=
  { name := name
    principal := principal
    taken_amount := principal
    rate := rate
    loan_type := ltype
    interest_frequency := freq
    start_date := some sd
    tenure := if ltype == "BANK" then tenure else none
    emi := if ltype == "BANK" then emi else none
    payments := [] }

/-- Python `add_loan` (finance_store.py:115-146), at the level of the loaded loans
list: raises iff `start_date > date.today()`, otherwise appends the new loan
and persists.  No other validation is performed by the source. -/
def addLoan (today : PyDate) (name : String) (principal rate : ℚ) (sd : PyDate)
    (tenure : Option ℤ) (emi : Option ℚ) (ltype freq : String)
    (loans : List Loan) : Except FinErr (List Loan) :=
  if PyDate.ltb today sd then .error .futureStartDate
  else .ok (loans ++ [mkLoan name principal rate sd tenure emi ltype freq])

/-- Step 3 of `add_payment` (finance_store.py:183-184): PRINCIPAL reduction
for INTEREST_ONLY loans, floored at zero. -/
def applyPrincipalReduction (loan : Loan) (amount : ℚ) (note : String) : Loan :=
  if loan.loan_type == "INTEREST_ONLY" && note == "PRINCIPAL" then
    { loan with principal := max 0 (loan.principal - amount) }
  else loan

/-- Step 4 of `add_payment` (finance_store.py:187-193): EMI principal
reduction for BANK loans, floored at zero and rounded to 2 decimals. -/
def applyEmiReduction (loan : Loan) (amount : ℚ) (note : String) : Loan :=
  if loan.loan_type == "BANK" && note == "EMI" then
    let r := loan.rate / 12 / 100
    let interest := loan.principal * r
    let principal_component := max 0 (amount - interest)
    { loan with principal := round2 (max 0 (loan.principal - principal_component)) }
  else loan

/-- Step 5 of `add_payment` (finance_store.py:196-200): append the payment
record, dated the first of the target month. -/
def appendPayment (loan : Loan) (amount : ℚ) (note : String) (mk : MonthKey) : Loan :=
  { loan with payments := loan.payments ++ [⟨mk.toStr ++ "-01", amount, note⟩] }

/-- Python `add_payment` (finance_store.py:159-202) on a single loan.  Checks run in
source order: future-date check, then the one-EMI-per-month duplicate scan
(string comparison `p["date"].startswith(month_key)`), then the two principal
side effects and the append.  `.error` models a raise before any mutation. -/
def addPaymentLoan (loan : Loan) (amount : ℚ) (note : String) (mk : MonthKey)
    (today : PyDate) : Except FinErr Loan :=
  if PyDate.ltb today mk.toDate then .error .futureDate
  else if loan.loan_type == "BANK" && note == "EMI" &&
      loan.payments.any (fun p => p.note == "EMI" && pyStartsWith p.date mk.toStr) then
    .error .duplicateEMI
  else
    .ok (appendPayment (applyEmiReduction (applyPrincipalReduction loan amount note)
          amount note) amount note mk)

/-- Python `undo_last_payment` (modules/finance.py:170-183) on a single loan: pop the
most recent payment; if it was a PRINCIPAL payment on an INTEREST_ONLY loan,
add its amount back to the principal.  Returns false (no-op) on an empty list. -/
def undoLastPayment (loan : Loan) : Bool × Loan :=
  match loan.payments.getLast? with
  | none => (false, loan)
  | some last =>
    if loan.loan_type == "INTEREST_ONLY" && last.note == "PRINCIPAL" then
      (true, { loan with payments := loan.payments.dropLast,
                         principal := loan.principal + last.amount })
    else (true, { loan with payments := loan.payments.dropLast })

/-- Python `calculate_emis_paid` (finance_store.py:95-96): number of payments tagged
EMI. -/
def calculateEmisPaid (loan : Loan) : ℕ :=
  (loan.payments.filter (fun p => p.note == "EMI")).length

/-- Python `months_between` (utils/dates.py:3-11): inclusive month difference. -/
def months_between (s e : PyDate) : ℤ :=
  ((e.year : ℤ) - s.year) * 12 + ((e.month : ℤ) - s.month) + 1

/-- Python `calculate_emis_elapsed` (finance_store.py:98-107); `today` is passed
explicitly (`date.today()` in the source). -/
def calculateEmisElapsed (loan : Loan) (today : PyDate) : ℤ :=
  match loan.start_date with
  | none => 0
  | some d => max 0 (months_between d today)

/-- Python `calculate_emis_overdue` (finance_store.py:109-110). -/
def calculateEmisOverdue (loan : Loan) (today : PyDate) : ℤ :=
  max 0 (calculateEmisElapsed loan today - calculateEmisPaid loan)

/-- Python `calculate_emi` (finance_store.py:207-211): fixed-installment EMI formula
with the straight-line `rate == 0` branch. -/
def calculateEmi (principal rate : ℚ) (tenure : ℤ) : ℚ :=
  let r := rate / 12 / 100
  if r = 0 then principal / tenure
  else principal * r * (1 + r) ^ tenure / ((1 + r) ^ tenure - 1)

/-- One row of the derived amortization schedule (finance_store.py:238-245). -/
structure SchedRow where
  month : ℕ
  opening_balance : ℚ
  emi : ℚ
  interest : ℚ
  principal : ℚ
  closing_balance : ℚ
deriving DecidableEq

/-- The schedule-building loop of `build_amortization_schedule`
(finance_store.py:229-247): iterate over `month in 1..tenure`, stopping when
the balance is non-positive; stored row fields are 2-decimal rounded, the
carried balance is the unrounded closing value. -/
def buildRows (rate emi : ℚ) : ℕ → ℕ → ℚ → List SchedRow
  | 0, _, _ => []
  | n + 1, month, balance =>
    if balance ≤ 0 then []
    else
      let interest := balance * rate
      let principal_component := min (emi - interest) balance
      let closing := balance - principal_component
      ⟨month, round2 balance, round2 emi, round2 interest,
        round2 principal_component, round2 closing⟩ ::
        buildRows rate emi n (month + 1) closing

/-- Python `build_amortization_schedule` (finance_store.py:218-255).  Missing
`tenure`/`emi` fields default to 0 as `loan.get(key, 0)` does.  Returns the
schedule and the 2-decimal-rounded remaining balance selected by the count of
EMI payments. -/
def buildAmortizationSchedule (loan : Loan) : List SchedRow × ℚ :=
  let principal := loan.principal
  let rate := loan.rate / 12 / 100
  let emi := (loan.emi.getD 0 : ℚ)
  let tenure := (loan.tenure.getD 0 : ℤ)
  let schedule := buildRows rate emi tenure.toNat 1 principal
  let emi_paid := calculateEmisPaid loan
  let remaining :=
    if 0 < emi_paid ∧ emi_paid ≤ schedule.length then
      (schedule.getD (emi_paid - 1) ⟨0, 0, 0, 0, 0, 0⟩).closing_balance
    else principal
  (schedule, round2 remaining)

/-- The projection loop of `forecast_prepayment` (finance_store.py:277-282),
with explicit fuel: the source `while new_balance > 0` loop has NO guard on a
non-positive principal component, so it need not terminate; `none` means the
loop is still running after `fuel` iterations. -/
def forecastLoopFuel (rate emi : ℚ) : ℕ → ℚ → ℕ → ℚ → Option (ℕ × ℚ)
  | fuel, balance, months, total_interest =>
    if 0 < balance then
      match fuel with
      | 0 => none
      | fuel' + 1 =>
        let interest := balance * rate
        let principal_component := min (emi - interest) balance
        forecastLoopFuel rate emi fuel' (balance - principal_component)
          (months + 1) (total_interest + interest)
    else some (months, total_interest)

/-- Python `forecast_prepayment` (finance_store.py:257-289).  Outer `none` = the
unguarded while loop has not terminated within the given fuel; `some none` =
the Python function returns `None`; `some (some (months, saved))` = a result.
The embedding is a pure function of the loan: the source reads but never
writes the loan or the store (no `save_finance` call). -/
def forecastPrepayment (fuel : ℕ) (loan : Loan) (prepay_amount : ℚ) :
    Option (Option (ℕ × ℚ)) :=
  if loan.loan_type == "BANK" then
    let sr := buildAmortizationSchedule loan
    let remaining := sr.2
    if prepay_amount ≤ 0 ∨ remaining ≤ prepay_amount then some none
    else
      let rate := loan.rate / 12 / 100
      let emi := (loan.emi.getD 0 : ℚ)
      let original_interest := (sr.1.map (fun row => row.interest)).sum
      (forecastLoopFuel rate emi fuel (remaining - prepay_amount) 0 0).map
        (fun res => some (res.1, round2 (original_interest - res.2)))
  else some none

/-- The guarded projection loop of `prepay_stress_simulation`
(finance_store.py:396-406): on `principal_component <= 0` it aborts and
reports the months = infinity sentinel (`none` in the months slot of the result).
Fuel-free is impossible in general, so fuel is kept; `some (none, fi)` is the
sentinel outcome. -/
def stressLoopFuel (rate emi : ℚ) : ℕ → ℚ → ℕ → ℚ → Option (Option ℕ × ℚ)
  | fuel, balance, months, future_interest =>
    if 0 < balance then
      match fuel with
      | 0 => none
      | fuel' + 1 =>
        let interest := balance * rate
        let principal_component := min (emi - interest) balance
        if principal_component ≤ 0 then some (none, future_interest)
        else
          stressLoopFuel rate emi fuel' (balance - principal_component)
            (months + 1) (future_interest + interest)
    else some (some months, future_interest)

/-! ### Arithmetic lemmas about 2-decimal rounding -/

theorem roundHalfEven_intCast (k : ℤ) : roundHalfEven (k : ℚ) = k := by
  unfold roundHalfEven
  rw [Int.floor_intCast]
  norm_num

theorem floor_le_roundHalfEven (q : ℚ) : ⌊q⌋ ≤ roundHalfEven q := by
  unfold roundHalfEven
  split_ifs <;> omega

theorem roundHalfEven_le_floor_add_one (q : ℚ) : roundHalfEven q ≤ ⌊q⌋ + 1 := by
  unfold roundHalfEven
  split_ifs <;> omega

theorem roundHalfEven_nonneg {q : ℚ} (h : 0 ≤ q) : 0 ≤ roundHalfEven q :=
  le_trans (Int.floor_nonneg.mpr h) (floor_le_roundHalfEven q)

theorem roundHalfEven_le_intCast {q : ℚ} {k : ℤ} (h : q ≤ (k : ℚ)) :
    roundHalfEven q ≤ k := by
  have hfl : ⌊q⌋ ≤ k := by
    have := Int.floor_mono h
    simpa using this
  rcases eq_or_lt_of_le hfl with heq | hlt
  · have hq : q = (k : ℚ) := by
      have h1 : (k : ℚ) ≤ q := by
        have := Int.floor_le q
        rw [heq] at this
        exact_mod_cast this
      linarith
    rw [hq, roundHalfEven_intCast]
  · have := roundHalfEven_le_floor_add_one q
    omega

theorem round2_isCent (q : ℚ) : isCent (round2 q) := ⟨roundHalfEven (q * 100), rfl⟩

theorem round2_of_isCent {q : ℚ} (h : isCent q) : round2 q = q := by
  obtain ⟨k, rfl⟩ := h
  unfold round2
  have h100 : ((k : ℚ) / 100) * 100 = (k : ℚ) := by ring
  rw [h100, roundHalfEven_intCast]

theorem round2_nonneg {q : ℚ} (h : 0 ≤ q) : 0 ≤ round2 q := by
  unfold round2
  have : (0 : ℤ) ≤ roundHalfEven (q * 100) := roundHalfEven_nonneg (by positivity)
  positivity

theorem round2_le_of_le_isCent {q x : ℚ} (hle : q ≤ x) (hx : isCent x) :
    round2 q ≤ x := by
  obtain ⟨k, rfl⟩ := hx
  unfold round2
  have h1 : q * 100 ≤ (k : ℚ) := by linarith
  have h2 : roundHalfEven (q * 100) ≤ k := roundHalfEven_le_intCast h1
  have h3 : (roundHalfEven (q * 100) : ℚ) ≤ (k : ℚ) := by exact_mod_cast h2
  linarith

/-! ### Sequences of ledger operations (claim C1) -/

/-- A ledger operation on one loan: record a payment, or undo the last one.
`add_loan` is the initial state, characterized by the hypotheses of the
invariant theorem (`taken_amount = principal`, empty payment list). -/
inductive Op where
  | pay (amount : ℚ) (note : String) (mk : MonthKey) (today : PyDate)
  | undo
deriving DecidableEq

/-- A valid operation per the spec: payments carry a positive amount; undo is
always valid. -/
def validOp : Op → Prop
  | .pay a _ _ _ => 0 < a
  | .undo => True

/-- Apply one operation; a rejected payment (a raise) leaves the loan
unchanged, as in the source where the exception precedes any mutation. -/
def applyOp (loan : Loan) : Op → Loan
  | .pay a note mk today =>
    match addPaymentLoan loan a note mk today with
    | .ok l => l
    | .error _ => loan
  | .undo => (undoLastPayment loan).2

/-- Run a sequence of ledger operations left to right. -/
def runOps (loan : Loan) (ops : List Op) : Loan := ops.foldl applyOp loan

/-- The state invariant maintained by the ledger: non-negative principal, a
2-decimal principal on BANK loans, and positive recorded amounts. -/
def LoanInv (l : Loan) : Prop :=
  0 ≤ l.principal ∧ (l.loan_type = "BANK" → isCent l.principal) ∧
    ∀ p ∈ l.payments, 0 < p.amount

theorem applyPrincipalReduction_fields (l : Loan) (a : ℚ) (note : String) :
    (applyPrincipalReduction l a note).taken_amount = l.taken_amount ∧
    (applyPrincipalReduction l a note).loan_type = l.loan_type ∧
    (applyPrincipalReduction l a note).payments = l.payments := by
  unfold applyPrincipalReduction
  split <;> exact ⟨rfl, rfl, rfl⟩

theorem applyPrincipalReduction_principal (l : Loan) (a : ℚ) (note : String)
    (h0 : 0 ≤ l.principal) (ha : 0 ≤ a) :
    0 ≤ (applyPrincipalReduction l a note).principal ∧
    (applyPrincipalReduction l a note).principal ≤ l.principal := by
  unfold applyPrincipalReduction
  split
  · exact ⟨le_max_left _ _, max_le h0 (by linarith)⟩
  · exact ⟨h0, le_refl _⟩

theorem applyPrincipalReduction_cent (l : Loan) (a : ℚ) (note : String)
    (hc : l.loan_type = "BANK" → isCent l.principal) :
    (applyPrincipalReduction l a note).loan_type = "BANK" →
      isCent (applyPrincipalReduction l a note).principal := by
  unfold applyPrincipalReduction
  split
  · rename_i h
    intro hb
    simp only [Bool.and_eq_true, beq_iff_eq] at h
    exact absurd (h.1.symm.trans hb) (by decide)
  · exact hc

theorem applyEmiReduction_fields (l : Loan) (a : ℚ) (note : String) :
    (applyEmiReduction l a note).taken_amount = l.taken_amount ∧
    (applyEmiReduction l a note).loan_type = l.loan_type ∧
    (applyEmiReduction l a note).payments = l.payments := by
  unfold applyEmiReduction
  split <;> exact ⟨rfl, rfl, rfl⟩

theorem applyEmiReduction_principal (l : Loan) (a : ℚ) (note : String)
    (h0 : 0 ≤ l.principal) (hc : l.loan_type = "BANK" → isCent l.principal) :
    0 ≤ (applyEmiReduction l a note).principal ∧
    (applyEmiReduction l a note).principal ≤ l.principal ∧
    ((applyEmiReduction l a note).loan_type = "BANK" →
      isCent (applyEmiReduction l a note).principal) := by
  unfold applyEmiReduction
  split
  · rename_i h
    simp only [Bool.and_eq_true, beq_iff_eq] at h
    have hcent : isCent l.principal := hc h.1
    have hpc : 0 ≤ max 0 (a - l.principal * (l.rate / 12 / 100)) := le_max_left _ _
    refine ⟨round2_nonneg (le_max_left _ _), ?_, fun _ => round2_isCent _⟩
    exact round2_le_of_le_isCent (max_le h0 (by linarith)) hcent
  · exact ⟨h0, le_refl _, hc⟩

theorem appendPayment_fields (l : Loan) (a : ℚ) (note : String) (mk : MonthKey) :
    (appendPayment l a note mk).taken_amount = l.taken_amount ∧
    (appendPayment l a note mk).loan_type = l.loan_type ∧
    (appendPayment l a note mk).principal = l.principal ∧
    (appendPayment l a note mk).payments =
      l.payments ++ [⟨mk.toStr ++ "-01", a, note⟩] :=
  ⟨rfl, rfl, rfl, rfl⟩

theorem addPaymentLoan_ok_eq {l l' : Loan} {a : ℚ} {note : String}
    {mk : MonthKey} {today : PyDate}
    (hok : addPaymentLoan l a note mk today = .ok l') :
    l' = appendPayment (applyEmiReduction (applyPrincipalReduction l a note)
      a note) a note mk := by
  unfold addPaymentLoan at hok
  split at hok
  · cases hok
  · split at hok
    · cases hok
    · cases hok
      rfl

theorem addPaymentLoan_ok_inv {l l' : Loan} {a : ℚ} {note : String}
    {mk : MonthKey} {today : PyDate}
    (hok : addPaymentLoan l a note mk today = .ok l')
    (hinv : LoanInv l) (ha : 0 < a) :
    LoanInv l' ∧ l'.principal ≤ l.principal ∧
    l'.taken_amount = l.taken_amount ∧ l'.loan_type = l.loan_type := by
  obtain ⟨h0, hc, hpos⟩ := hinv
  have heq := addPaymentLoan_ok_eq hok
  subst heq
  obtain ⟨ht1, hl1, hp1⟩ := applyPrincipalReduction_fields l a note
  obtain ⟨h01, hle1⟩ := applyPrincipalReduction_principal l a note h0 (le_of_lt ha)
  have hc1 := applyPrincipalReduction_cent l a note hc
  obtain ⟨ht2, hl2, hp2⟩ :=
    applyEmiReduction_fields (applyPrincipalReduction l a note) a note
  obtain ⟨h02, hle2, hc2⟩ :=
    applyEmiReduction_principal (applyPrincipalReduction l a note) a note h01 hc1
  obtain ⟨ht3, hl3, hpr3, hp3⟩ :=
    appendPayment_fields (applyEmiReduction (applyPrincipalReduction l a note)
      a note) a note mk
  refine ⟨⟨?_, ?_, ?_⟩, ?_, ?_, ?_⟩
  · rw [hpr3]; exact h02
  · intro hb
    rw [hpr3]
    exact hc2 (by rw [hl3] at hb; exact hb)
  · intro p hp
    rw [hp3, hp2, hp1] at hp
    rcases List.mem_append.mp hp with hmem | hmem
    · exact hpos p hmem
    · rcases List.mem_singleton.mp hmem with rfl
      exact ha
  · rw [hpr3]; exact le_trans hle2 hle1
  · rw [ht3, ht2, ht1]
  · rw [hl3, hl2, hl1]

theorem undoLastPayment_inv {l : Loan} (hinv : LoanInv l) :
    LoanInv (undoLastPayment l).2 ∧
    (undoLastPayment l).2.taken_amount = l.taken_amount ∧
    (undoLastPayment l).2.loan_type = l.loan_type := by
  obtain ⟨h0, hc, hpos⟩ := hinv
  unfold undoLastPayment
  cases hlast : l.payments.getLast? with
  | none => exact ⟨⟨h0, hc, hpos⟩, rfl, rfl⟩
  | some last =>
    have hmem : last ∈ l.payments := List.mem_of_getLast?_eq_some hlast
    have hdrop : ∀ p ∈ l.payments.dropLast, 0 < p.amount :=
      fun p hp => hpos p (List.dropLast_subset _ hp)
    dsimp only
    split
    · rename_i h
      simp only [Bool.and_eq_true, beq_iff_eq] at h
      refine ⟨⟨?_, ?_, hdrop⟩, rfl, rfl⟩
      · have := hpos last hmem
        dsimp only
        linarith
      · intro hb
        exact absurd (h.1.symm.trans hb) (by decide)
    · exact ⟨⟨h0, hc, hdrop⟩, rfl, rfl⟩

theorem applyOp_inv {l : Loan} {op : Op} (hinv : LoanInv l) (hv : validOp op) :
    LoanInv (applyOp l op) ∧
    (applyOp l op).taken_amount = l.taken_amount ∧
    (applyOp l op).loan_type = l.loan_type ∧
    (op ≠ Op.undo → (applyOp l op).principal ≤ l.principal) := by
  cases op with
  | pay a note mk today =>
    simp only [applyOp]
    cases hcall : addPaymentLoan l a note mk today with
    | ok l' =>
      obtain ⟨h1, h2, h3, h4⟩ := addPaymentLoan_ok_inv hcall hinv hv
      exact ⟨h1, h3, h4, fun _ => h2⟩
    | error e => exact ⟨hinv, rfl, rfl, fun _ => le_refl _⟩
  | undo =>
    simp only [applyOp]
    obtain ⟨h1, h2, h3⟩ := undoLastPayment_inv hinv
    exact ⟨h1, h2, h3, fun h => absurd rfl h⟩

theorem runOps_inv (ops : List Op) :
    ∀ l : Loan, LoanInv l → (∀ op ∈ ops, validOp op) →
    LoanInv (runOps l ops) ∧
    (runOps l ops).taken_amount = l.taken_amount ∧
    ((∀ op ∈ ops, op ≠ Op.undo) → (runOps l ops).principal ≤ l.principal) := by
  induction ops with
  | nil => exact fun l hinv _ => ⟨hinv, rfl, fun _ => le_refl _⟩
  | cons op rest ih =>
    intro l hinv hv
    have hop := applyOp_inv hinv (hv op (List.mem_cons_self op rest))
    have hrest := ih (applyOp l op) hop.1
      (fun o ho => hv o (List.mem_cons_of_mem op ho))
    refine ⟨hrest.1, ?_, ?_⟩
    · rw [show runOps l (op :: rest) = runOps (applyOp l op) rest from rfl,
        hrest.2.1, hop.2.1]
    · intro hnu
      have h1 : (runOps (applyOp l op) rest).principal ≤ (applyOp l op).principal :=
        hrest.2.2 (fun o ho => hnu o (List.mem_cons_of_mem op ho))
      have h2 : (applyOp l op).principal ≤ l.principal :=
        hop.2.2.2 (hnu op (List.mem_cons_self op rest))
      exact le_trans h1 h2

/-! ### Claim C1 -/

/-- C1 (amended).  For a loan as `add_loan` creates it (empty payment list,
`taken_amount = principal`, positive principal, and — for BANK loans — a
principal that is an exact 2-decimal currency value), after any sequence of
valid operations (`add_payment` with positive amount, `undo_last_payment`):
`0 <= principal` always holds, and if the sequence contains no undo then
`principal <= taken_amount` and the principal never increases.  The unconditional upper bound of the original
claim fails: an undo of an overshooting PRINCIPAL
payment, or 2-decimal rounding of an off-grid BANK principal, can push
`principal` above `taken_amount` (see the counterexample). -/
theorem claim1_principal_bounds (l : Loan) (ops : List Op)
    (hpay : l.payments = [])
    (h0 : 0 < l.principal)
    (htaken : l.taken_amount = l.principal)
    (hcent : l.loan_type = "BANK" → isCent l.principal)
    (hvalid : ∀ op ∈ ops, validOp op) :
    0 ≤ (runOps l ops).principal ∧
    ((∀ op ∈ ops, op ≠ Op.undo) →
      (runOps l ops).principal ≤ (runOps l ops).taken_amount ∧
      (runOps l ops).principal ≤ l.principal) := by
  have hinv : LoanInv l :=
    ⟨le_of_lt h0, hcent, by rw [hpay]; intro p hp; cases hp⟩
  obtain ⟨hi, ht, hmono⟩ := runOps_inv ops l hinv hvalid
  refine ⟨hi.1, fun hnu => ⟨?_, hmono hnu⟩⟩
  rw [ht, htaken]
  exact hmono hnu

/-- Witness for C1 (amended): a BANK loan of 1000 at 12% with one recorded
EMI payment of 100 keeps `0 <= principal <= taken_amount`. -/
theorem claim1_principal_bounds_witness :
    0 ≤ (runOps ⟨"w", 1000, 1000, 12, "BANK", "MONTHLY", some ⟨2024, 1, 1⟩,
        some 12, some 100, []⟩
        [Op.pay 100 "EMI" ⟨2024, 2⟩ ⟨2024, 6, 1⟩]).principal ∧
    ((∀ op ∈ [Op.pay 100 "EMI" ⟨2024, 2⟩ ⟨2024, 6, 1⟩], op ≠ Op.undo) →
      (runOps ⟨"w", 1000, 1000, 12, "BANK", "MONTHLY", some ⟨2024, 1, 1⟩,
          some 12, some 100, []⟩
          [Op.pay 100 "EMI" ⟨2024, 2⟩ ⟨2024, 6, 1⟩]).principal ≤
        (runOps ⟨"w", 1000, 1000, 12, "BANK", "MONTHLY", some ⟨2024, 1, 1⟩,
          some 12, some 100, []⟩
          [Op.pay 100 "EMI" ⟨2024, 2⟩ ⟨2024, 6, 1⟩]).taken_amount ∧
      (runOps ⟨"w", 1000, 1000, 12, "BANK", "MONTHLY", some ⟨2024, 1, 1⟩,
          some 12, some 100, []⟩
          [Op.pay 100 "EMI" ⟨2024, 2⟩ ⟨2024, 6, 1⟩]).principal ≤ 1000) :=
  claim1_principal_bounds _ _ rfl (by norm_num) rfl
    (fun _ => ⟨100000, by norm_num⟩)
    (by
      intro op hop
      rcases List.mem_singleton.mp hop with rfl
      show (0 : ℚ) < 100
      norm_num)

set_option maxRecDepth 8000 in
/-- Counterexample for C1 as stated.  Left: on an INTEREST_ONLY loan with
`taken_amount = 100`, the valid sequence pay PRINCIPAL 150 (floored at 0)
then undo leaves `principal = 150 > 100 = taken_amount`.  Right: on a BANK
loan with principal 100.006, a valid EMI payment of 1 (entirely absorbed by
interest) rounds the principal up to 100.01, strictly above `taken_amount`,
with no undo involved. -/
theorem claim1_counterexample :
    ((0 : ℚ) < 150 ∧
      (runOps ⟨"io", 100, 100, 12, "INTEREST_ONLY", "MONTHLY",
          some ⟨2024, 1, 1⟩, none, none, []⟩
          [Op.pay 150 "PRINCIPAL" ⟨2024, 5⟩ ⟨2024, 6, 1⟩, Op.undo]).principal = 150 ∧
      (runOps ⟨"io", 100, 100, 12, "INTEREST_ONLY", "MONTHLY",
          some ⟨2024, 1, 1⟩, none, none, []⟩
          [Op.pay 150 "PRINCIPAL" ⟨2024, 5⟩ ⟨2024, 6, 1⟩, Op.undo]).taken_amount = 100) ∧
    ((0 : ℚ) < 1 ∧
      (runOps ⟨"b", 50003/500, 50003/500, 12, "BANK", "MONTHLY",
          some ⟨2024, 1, 1⟩, some 12, some 1, []⟩
          [Op.pay 1 "EMI" ⟨2024, 5⟩ ⟨2024, 6, 1⟩]).principal = 10001/100 ∧
      (runOps ⟨"b", 50003/500, 50003/500, 12, "BANK", "MONTHLY",
          some ⟨2024, 1, 1⟩, some 12, some 1, []⟩
          [Op.pay 1 "EMI" ⟨2024, 5⟩ ⟨2024, 6, 1⟩]).taken_amount = 50003/500 ∧
      (50003/500 : ℚ) < 10001/100) := by
  refine ⟨⟨by norm_num, ?_, ?_⟩, by norm_num, ?_, ?_, by norm_num⟩ <;>
    with_unfolding_all rfl

/-! ### Claim C2 -/

/-- The input on which `forecast_prepayment` diverges: a BANK loan whose EMI
(5) is below the interest of the first month (9 on a balance of 900 after the
prepayment of 100). -/
def claim2Loan : Loan :=
  ⟨"stuck", 1000, 1000, 12, "BANK", "MONTHLY", some ⟨2024, 1, 1⟩,
    some 12, some 5, []⟩

set_option maxRecDepth 8000 in
/-- C2 is a code bug in `forecast_prepayment` (finance_store.py:277-282): its
`while new_balance > 0` loop has no `principal_component <= 0` guard, unlike
`prepay_stress_simulation` (finance_store.py:396-406), whose loop carries the
guard together with the comment "guard against infinite loops in edge
cases".  On `claim2Loan` with a prepayment of 100 the balance grows every
iteration (900, 904, 908.04, ...), so for EVERY fuel bound the loop is still
running: the function never returns, instead of reporting the months =
infinity sentinel the claim describes.  In contrast, the guarded loop of
`prepay_stress_simulation` on the same parameters aborts at once with the
sentinel (second conjunct), confirming the guard is the intended behavior. -/
theorem claim2_forecast_divergence (fuel : ℕ) :
    forecastPrepayment fuel claim2Loan 100 = none ∧
    stressLoopFuel (1/100) 5 (fuel + 1) 900 0 0 = some (none, 0) := by
  refine ⟨?_, by with_unfolding_all rfl⟩
  have key : ∀ f : ℕ, ∀ b : ℚ, ∀ m : ℕ, ∀ ti : ℚ, (900 : ℚ) ≤ b →
      forecastLoopFuel (1/100) 5 f b m ti = none := by
    intro f
    induction f with
    | zero =>
      intro b m ti hb
      rw [forecastLoopFuel, if_pos (by linarith : (0 : ℚ) < b)]
    | succ f ih =>
      intro b m ti hb
      rw [forecastLoopFuel, if_pos (by linarith : (0 : ℚ) < b)]
      have hmin : min (5 - b * (1/100)) b = 5 - b * (1/100) :=
        min_eq_left (by linarith)
      dsimp only
      rw [hmin]
      exact ih _ _ _ (by linarith)
  have h := key fuel 900 0 0 (le_refl _)
  have hunfold : forecastPrepayment fuel claim2Loan 100 =
      (forecastLoopFuel (1/100) 5 fuel 900 0 0).map
        (fun res => some (res.1, round2
          ((((buildAmortizationSchedule claim2Loan).1.map
            (fun row => row.interest)).sum) - res.2))) := by
    with_unfolding_all rfl
  rw [hunfold, h]
  rfl

/-! ### Claim C3 -/

theorem charsStartWith_self_append (p t : List Char) :
    charsStartWith (p ++ t) p = true := by
  induction p with
  | nil => simp [charsStartWith]
  | cons c cs ih => simp [charsStartWith, ih]

theorem pyStartsWith_self_append (s t : String) :
    pyStartsWith (s ++ t) s = true := by
  cases s with
  | mk a =>
    cases t with
    | mk b => exact charsStartWith_self_append a b

/-- Number of EMI payments on the loan whose date string starts with the
given month key — the quantity bounded by the duplicate scan in `add_payment`. -/
def countEmiInMonth (loan : Loan) (mkStr : String) : ℕ :=
  (loan.payments.filter
    (fun p => p.note == "EMI" && pyStartsWith p.date mkStr)).length

/-- C3.  On a BANK loan, booking an EMI for a month key that already carries
an EMI payment raises DuplicatePaymentError (`.error` = raise before any
mutation, so principal and payment list are untouched); and when the booking
succeeds, the month had no EMI payment before and has exactly one after —
hence at most one EMI payment per distinct calendar month. -/
theorem claim3_duplicate_emi (loan : Loan) (amount : ℚ) (mk : MonthKey)
    (today : PyDate)
    (hbank : loan.loan_type = "BANK")
    (hdate : PyDate.ltb today mk.toDate = false) :
    ((loan.payments.any
        (fun p => p.note == "EMI" && pyStartsWith p.date mk.toStr)) = true →
      addPaymentLoan loan amount "EMI" mk today = .error .duplicateEMI) ∧
    (∀ l2, addPaymentLoan loan amount "EMI" mk today = .ok l2 →
      countEmiInMonth loan mk.toStr = 0 ∧ countEmiInMonth l2 mk.toStr = 1) := by
  constructor
  · intro hdup
    simp [addPaymentLoan, hdate, hbank, hdup]
  · intro l2 hok
    have hdup : loan.payments.any
        (fun p => p.note == "EMI" && pyStartsWith p.date mk.toStr) = false := by
      by_contra hc
      rw [Bool.not_eq_false] at hc
      simp [addPaymentLoan, hdate, hbank, hc] at hok
    have hall : ∀ p ∈ loan.payments,
        ¬(p.note == "EMI" && pyStartsWith p.date mk.toStr) = true := by
      simpa using List.any_eq_false.mp hdup
    have hc0 : countEmiInMonth loan mk.toStr = 0 := by
      unfold countEmiInMonth
      rw [List.length_eq_zero, List.filter_eq_nil_iff]
      exact hall
    refine ⟨hc0, ?_⟩
    have heq := addPaymentLoan_ok_eq hok
    subst heq
    obtain ⟨_, _, hp1⟩ := applyPrincipalReduction_fields loan amount "EMI"
    obtain ⟨_, _, hp2⟩ :=
      applyEmiReduction_fields (applyPrincipalReduction loan amount "EMI")
        amount "EMI"
    obtain ⟨_, _, _, hp3⟩ :=
      appendPayment_fields
        (applyEmiReduction (applyPrincipalReduction loan amount "EMI")
          amount "EMI") amount "EMI" mk
    unfold countEmiInMonth
    rw [hp3, hp2, hp1, List.filter_append]
    rw [show (List.filter
        (fun p => p.note == "EMI" && pyStartsWith p.date mk.toStr)
        loan.payments) = [] from List.filter_eq_nil_iff.mpr hall]
    simp [pyStartsWith_self_append]

/-- Witness for C3, Scenario 2 of the spec: a second EMI booking for
"2024-02" on a BANK loan that already holds one raises DuplicatePaymentError. -/
theorem claim3_duplicate_emi_witness :
    addPaymentLoan
      ⟨"w3", 100000, 100000, 12, "BANK", "MONTHLY", some ⟨2024, 1, 1⟩,
        some 12, some 8885, [⟨"2024-02-01", 8885, "EMI"⟩]⟩
      8885 "EMI" ⟨2024, 2⟩ ⟨2024, 6, 1⟩ = .error .duplicateEMI :=
  (claim3_duplicate_emi _ 8885 ⟨2024, 2⟩ ⟨2024, 6, 1⟩ rfl (by decide)).1
    (by with_unfolding_all decide)

/-! ### Claim C4 -/

theorem buildRows_closing_isCent (rate emi : ℚ) :
    ∀ n month balance, ∀ row ∈ buildRows rate emi n month balance,
      isCent row.closing_balance := by
  intro n
  induction n with
  | zero =>
    intro month balance row hrow
    simp [buildRows] at hrow
  | succ n ih =>
    intro month balance row hrow
    rw [buildRows] at hrow
    split at hrow
    · cases hrow
    · dsimp only at hrow
      rcases List.mem_cons.mp hrow with rfl | h
      · exact round2_isCent _
      · exact ih _ _ _ h

/-- C4 (amended).  `build_amortization_schedule` returns
`remaining_balance = schedule[emi_paid - 1].closing_balance` whenever
`0 < emi_paid <= len(schedule)`, and `round(starting_balance, 2)` otherwise
(the source applies `round(remaining, 2)` to the selected value; stored
closing balances are already 2-decimal, the raw principal need not be); in
particular `tenure == 0` yields an empty schedule with remaining equal to the
2-decimal rounding of the principal.  The original-claim reading that remaining equals
the starting balance fails only when the stored principal is not an exact
2-decimal value (see the counterexample). -/
theorem claim4_remaining (loan : Loan) :
    (0 < calculateEmisPaid loan ∧
        calculateEmisPaid loan ≤ (buildAmortizationSchedule loan).1.length →
      (buildAmortizationSchedule loan).2 =
        ((buildAmortizationSchedule loan).1.getD (calculateEmisPaid loan - 1)
          ⟨0, 0, 0, 0, 0, 0⟩).closing_balance) ∧
    (¬(0 < calculateEmisPaid loan ∧
        calculateEmisPaid loan ≤ (buildAmortizationSchedule loan).1.length) →
      (buildAmortizationSchedule loan).2 = round2 loan.principal) ∧
    ((loan.tenure.getD 0 : ℤ) ≤ 0 →
      (buildAmortizationSchedule loan).1 = [] ∧
      (buildAmortizationSchedule loan).2 = round2 loan.principal) := by
  have h1 : (buildAmortizationSchedule loan).1 =
      buildRows (loan.rate / 12 / 100) (loan.emi.getD 0)
        (loan.tenure.getD 0).toNat 1 loan.principal := rfl
  have h2 : (buildAmortizationSchedule loan).2 =
      round2 (if 0 < calculateEmisPaid loan ∧
          calculateEmisPaid loan ≤ (buildAmortizationSchedule loan).1.length then
        ((buildAmortizationSchedule loan).1.getD (calculateEmisPaid loan - 1)
          ⟨0, 0, 0, 0, 0, 0⟩).closing_balance
      else loan.principal) := rfl
  refine ⟨?_, ?_, ?_⟩
  · intro h
    rw [h2, if_pos h]
    apply round2_of_isCent
    have hlt : calculateEmisPaid loan - 1 <
        (buildAmortizationSchedule loan).1.length := by omega
    rw [h1] at hlt ⊢
    rw [List.getD_eq_getElem?_getD, List.getElem?_eq_getElem hlt, Option.getD_some]
    exact buildRows_closing_isCent _ _ _ _ _ _ (List.getElem_mem hlt)
  · intro h
    rw [h2, if_neg h]
  · intro ht
    have hz : ((loan.tenure.getD 0 : ℤ)).toNat = 0 := by omega
    have hempty : (buildAmortizationSchedule loan).1 = [] := by
      rw [h1, hz, buildRows]
    have hnc : ¬(0 < calculateEmisPaid loan ∧
        calculateEmisPaid loan ≤ (buildAmortizationSchedule loan).1.length) := by
      rw [hempty]
      simp
      omega
    exact ⟨hempty, by rw [h2, if_neg hnc]⟩

/-- Witness for C4 (amended): a BANK loan (1000 at 12%, tenure 2, EMI 600)
with one EMI recorded has `remaining = schedule[0].closing_balance`. -/
theorem claim4_remaining_witness :
    (buildAmortizationSchedule
      ⟨"w4", 1000, 1000, 12, "BANK", "MONTHLY", some ⟨2024, 1, 1⟩,
        some 2, some 600, [⟨"2024-02-01", 600, "EMI"⟩]⟩).2 =
      ((buildAmortizationSchedule
        ⟨"w4", 1000, 1000, 12, "BANK", "MONTHLY", some ⟨2024, 1, 1⟩,
          some 2, some 600, [⟨"2024-02-01", 600, "EMI"⟩]⟩).1.getD 0
        ⟨0, 0, 0, 0, 0, 0⟩).closing_balance :=
  (claim4_remaining _).1 (by with_unfolding_all decide)

/-- The input refuting C4 as stated: tenure 0 and an off-grid principal
100.006; the schedule is empty and the returned remaining balance is
`round(100.006, 2) = 100.01`, not the starting balance. -/
def claim4Loan : Loan :=
  ⟨"c4", 50003/500, 50003/500, 12, "BANK", "MONTHLY", some ⟨2024, 1, 1⟩,
    some 0, some 100, []⟩

/-- Counterexample for C4 as stated: with `tenure == 0` the schedule is empty
but the remaining balance is 100.01, different from the starting principal
100.006 — the source returns the 2-decimal rounding of the starting balance,
not the starting balance itself. -/
theorem claim4_counterexample :
    (buildAmortizationSchedule claim4Loan).1 = [] ∧
    (buildAmortizationSchedule claim4Loan).2 = 10001/100 ∧
    (buildAmortizationSchedule claim4Loan).2 ≠ claim4Loan.principal := by
  refine ⟨by with_unfolding_all rfl, by with_unfolding_all rfl, fun hc => ?_⟩
  have h : (buildAmortizationSchedule claim4Loan).2 = 10001/100 := by
    with_unfolding_all rfl
  have hpr : claim4Loan.principal = 50003/500 := rfl
  rw [h, hpr] at hc
  norm_num at hc

/-! ### Claim C5 -/

/-- C5.  On an INTEREST_ONLY loan (with a non-future month key), `add_payment`
with note=INTEREST leaves `principal` unchanged and only appends the payment
record, while note=PRINCIPAL with amount `a` sets
`principal := max 0 (principal - a)` (reduction by exactly `a`, floored at
zero) and appends the record. -/
theorem claim5_interest_only_payments (loan : Loan) (a : ℚ) (mk : MonthKey)
    (today : PyDate)
    (hio : loan.loan_type = "INTEREST_ONLY")
    (hdate : PyDate.ltb today mk.toDate = false) :
    addPaymentLoan loan a "INTEREST" mk today =
      .ok { loan with
        payments := loan.payments ++ [⟨mk.toStr ++ "-01", a, "INTEREST"⟩] } ∧
    addPaymentLoan loan a "PRINCIPAL" mk today =
      .ok { loan with
        principal := max 0 (loan.principal - a),
        payments := loan.payments ++ [⟨mk.toStr ++ "-01", a, "PRINCIPAL"⟩] } := by
  constructor <;>
    simp [addPaymentLoan, hdate, hio, applyPrincipalReduction, applyEmiReduction,
      appendPayment]

/-- Witness for C5, Scenario 3 of the spec: an INTEREST_ONLY loan of 100000
at 12% keeps `principal = 100000` after an INTEREST payment of 1000, with the
payment recorded. -/
theorem claim5_interest_only_payments_witness :
    addPaymentLoan
      ⟨"w5", 100000, 100000, 12, "INTEREST_ONLY", "MONTHLY", some ⟨2024, 1, 1⟩,
        none, none, []⟩ 1000 "INTEREST" ⟨2024, 5⟩ ⟨2024, 6, 1⟩ =
      .ok ⟨"w5", 100000, 100000, 12, "INTEREST_ONLY", "MONTHLY", some ⟨2024, 1, 1⟩,
        none, none, [⟨"2024-05-01", 1000, "INTEREST"⟩]⟩ := by
  have h := (claim5_interest_only_payments
    ⟨"w5", 100000, 100000, 12, "INTEREST_ONLY", "MONTHLY", some ⟨2024, 1, 1⟩,
      none, none, []⟩ 1000 ⟨2024, 5⟩ ⟨2024, 6, 1⟩ rfl (by decide)).1
  rw [h]
  with_unfolding_all rfl

/-! ### Claim C6 -/

/-- C6.  `calculate_emi(P, rate, n)` equals
`P * r * (1+r)^n / ((1+r)^n - 1)` with `r = rate/12/100` when `rate != 0`,
and exactly `P / n` when `rate == 0` (the hypothesis `0 < n` reflects that
the Python function would divide by zero for `n = 0`). -/
theorem claim6_emi_formula (P rate : ℚ) (n : ℤ) (_hn : 0 < n) :
    calculateEmi P rate n =
      if rate = 0 then P / n
      else P * (rate / 12 / 100) * (1 + rate / 12 / 100) ^ n /
        ((1 + rate / 12 / 100) ^ n - 1) := by
  by_cases hr : rate = 0
  · subst hr
    simp [calculateEmi]
  · have hr2 : rate / 12 / 100 ≠ 0 := by
      rw [div_div]
      intro hc
      rcases div_eq_zero_iff.mp hc with hc1 | hc1
      · exact hr hc1
      · norm_num at hc1
    simp [calculateEmi, hr, hr2]

/-- Witness for C6: `calculate_emi(1200, 0, 12) = 1200 / 12 = 100`. -/
theorem claim6_emi_formula_witness :
    calculateEmi 1200 0 12 = (1200 : ℚ) / 12 := by
  have h := claim6_emi_formula 1200 0 12 (by norm_num)
  simpa using h

/-! ### Claim C7 -/

/-- C7.  `forecast_prepayment` returns None (`some none`: a normal return of
None, not divergence) on every non-BANK loan, and on any loan whenever
`prepay_amount <= 0` or `prepay_amount >=` the remaining balance computed by
the amortization engine.  These paths return before the projection loop, so
they hold for every fuel bound; the embedding is a pure function of the loan
— the source only reads the loan and never calls `save_finance`, matching
the claim that stored state is not mutated. -/
theorem claim7_forecast_nulls (loan : Loan) (prepay : ℚ) (fuel : ℕ) :
    (loan.loan_type ≠ "BANK" →
      forecastPrepayment fuel loan prepay = some none) ∧
    (prepay ≤ 0 ∨ (buildAmortizationSchedule loan).2 ≤ prepay →
      forecastPrepayment fuel loan prepay = some none) := by
  constructor
  · intro h
    unfold forecastPrepayment
    rw [if_neg (by simpa using h)]
  · intro h
    unfold forecastPrepayment
    by_cases hb : loan.loan_type = "BANK"
    · rw [if_pos (by simpa using hb)]
      dsimp only
      rw [if_pos h]
    · rw [if_neg (by simpa using hb)]

/-- Witness for C7: a prepayment of 0 on a BANK loan returns None, and any
prepayment on an INTEREST_ONLY loan returns None. -/
theorem claim7_forecast_nulls_witness :
    forecastPrepayment 10
      ⟨"w7", 1000, 1000, 12, "BANK", "MONTHLY", some ⟨2024, 1, 1⟩,
        some 12, some 90, []⟩ 0 = some none ∧
    forecastPrepayment 10
      ⟨"w7i", 1000, 1000, 12, "INTEREST_ONLY", "MONTHLY", some ⟨2024, 1, 1⟩,
        none, none, []⟩ 500 = some none :=
  ⟨(claim7_forecast_nulls _ 0 10).2 (Or.inl (by norm_num)),
   (claim7_forecast_nulls _ 500 10).1 (by decide)⟩

/-! ### Claim C8 -/

/-- C8 (amended).  `add_loan` validates only the start date: it raises
exactly when `start_date > today` (and then no loan is added), and otherwise
appends the new loan — including loans with non-positive principal, rate or
tenure, which the source does not check. -/
theorem claim8_add_loan_validation (today : PyDate) (name : String)
    (principal rate : ℚ) (sd : PyDate) (tenure : Option ℤ) (emi : Option ℚ)
    (ltype freq : String) (loans : List Loan) :
    (PyDate.ltb today sd = true →
      addLoan today name principal rate sd tenure emi ltype freq loans =
        .error .futureStartDate) ∧
    (PyDate.ltb today sd = false →
      addLoan today name principal rate sd tenure emi ltype freq loans =
        .ok (loans ++ [mkLoan name principal rate sd tenure emi ltype freq])) := by
  constructor <;> intro h <;> simp [addLoan, h]

/-- Witness for C8 (amended): a loan starting today is accepted; one starting
tomorrow is rejected with no loan added. -/
theorem claim8_add_loan_validation_witness :
    addLoan ⟨2024, 6, 1⟩ "w8" 5000 10 ⟨2024, 6, 1⟩ (some 12) (some 440)
      "BANK" "MONTHLY" [] =
      .ok [mkLoan "w8" 5000 10 ⟨2024, 6, 1⟩ (some 12) (some 440)
        "BANK" "MONTHLY"] ∧
    addLoan ⟨2024, 6, 1⟩ "w8f" 5000 10 ⟨2024, 6, 2⟩ (some 12) (some 440)
      "BANK" "MONTHLY" [] = .error .futureStartDate :=
  ⟨(claim8_add_loan_validation ⟨2024, 6, 1⟩ "w8" 5000 10 ⟨2024, 6, 1⟩
      (some 12) (some 440) "BANK" "MONTHLY" []).2 (by decide),
   (claim8_add_loan_validation ⟨2024, 6, 1⟩ "w8f" 5000 10 ⟨2024, 6, 2⟩
      (some 12) (some 440) "BANK" "MONTHLY" []).1 (by decide)⟩

/-- Counterexample for C8 as stated: `add_loan` ACCEPTS a loan with negative
principal (-1), zero rate and zero tenure dated today — no ValidationError
is raised for non-positive terms, and the malformed loan is added. -/
theorem claim8_counterexample :
    addLoan ⟨2024, 6, 1⟩ "bad" (-1) 0 ⟨2024, 6, 1⟩ (some 0) (some 0)
      "BANK" "MONTHLY" [] =
      .ok [⟨"bad", -1, -1, 0, "BANK", "MONTHLY", some ⟨2024, 6, 1⟩,
        some 0, some 0, []⟩] := by
  with_unfolding_all rfl

/-! ### Claim C9 -/

/-- C9.  `add_payment` never validates the sign of the amount: on an
INTEREST_ONLY loan a PRINCIPAL "payment" with negative amount `a` succeeds,
appends the record, and INCREASES principal to `principal - a > principal`
(the zero floor is inert since `principal - a ≥ principal ≥ 0`); starting
from a fresh loan (`principal = taken_amount`) this pushes principal above
`taken_amount` through the public interface. -/
theorem claim9_negative_amount (loan : Loan) (a : ℚ) (mk : MonthKey)
    (today : PyDate)
    (hio : loan.loan_type = "INTEREST_ONLY") (ha : a < 0)
    (hp : 0 ≤ loan.principal)
    (hdate : PyDate.ltb today mk.toDate = false) :
    addPaymentLoan loan a "PRINCIPAL" mk today =
      .ok { loan with
        principal := loan.principal - a,
        payments := loan.payments ++ [⟨mk.toStr ++ "-01", a, "PRINCIPAL"⟩] } ∧
    loan.principal < loan.principal - a := by
  have hmax : max 0 (loan.principal - a) = loan.principal - a :=
    max_eq_right (by linarith)
  constructor
  · simp [addPaymentLoan, hdate, hio, applyPrincipalReduction, applyEmiReduction,
      appendPayment, hmax]
  · linarith

/-- Witness for C9: paying PRINCIPAL -50 on a fresh INTEREST_ONLY loan of 100
raises its principal to 150, above `taken_amount = 100`. -/
theorem claim9_negative_amount_witness :
    addPaymentLoan
      ⟨"w9", 100, 100, 12, "INTEREST_ONLY", "MONTHLY", some ⟨2024, 1, 1⟩,
        none, none, []⟩ (-50) "PRINCIPAL" ⟨2024, 5⟩ ⟨2024, 6, 1⟩ =
      .ok ⟨"w9", 150, 100, 12, "INTEREST_ONLY", "MONTHLY", some ⟨2024, 1, 1⟩,
        none, none, [⟨"2024-05-01", -50, "PRINCIPAL"⟩]⟩ ∧
    (100 : ℚ) < 150 := by
  have h := claim9_negative_amount
    ⟨"w9", 100, 100, 12, "INTEREST_ONLY", "MONTHLY", some ⟨2024, 1, 1⟩,
      none, none, []⟩ (-50) ⟨2024, 5⟩ ⟨2024, 6, 1⟩ rfl (by norm_num)
    (by norm_num) (by decide)
  refine ⟨?_, by norm_num⟩
  rw [h.1]
  with_unfolding_all rfl

/-! ### Claim C10 -/

/-- C10.  `months_between` counts both endpoint months inclusively
(`(end.year - start.year)*12 + (end.month - start.month) + 1`), so a BANK
loan whose `start_date` lies in the current calendar month and which has no
recorded payments has `calculate_emis_elapsed == 1` and
`calculate_emis_overdue == 1`: a freshly created loan is reported one EMI
overdue on day one. -/
theorem claim10_fresh_loan_overdue (loan : Loan) (today : PyDate) (d : PyDate)
    (_hb : loan.loan_type = "BANK") (hs : loan.start_date = some d)
    (hy : d.year = today.year) (hm : d.month = today.month)
    (hp : loan.payments = []) :
    months_between d today =
      ((today.year : ℤ) - d.year) * 12 + ((today.month : ℤ) - d.month) + 1 ∧
    calculateEmisElapsed loan today = 1 ∧
    calculateEmisOverdue loan today = 1 := by
  have hmb : months_between d today = 1 := by
    unfold months_between
    rw [hy, hm]
    ring
  have helapsed : calculateEmisElapsed loan today = 1 := by
    unfold calculateEmisElapsed
    rw [hs]
    dsimp only
    rw [hmb]
    omega
  have hpaid : calculateEmisPaid loan = 0 := by
    unfold calculateEmisPaid
    rw [hp]
    rfl
  refine ⟨rfl, helapsed, ?_⟩
  unfold calculateEmisOverdue
  rw [helapsed, hpaid]
  omega

/-- Witness for C10: a BANK loan started 2024-06-05, with today = 2024-06-20
and no payments, is already one EMI elapsed and one EMI overdue. -/
theorem claim10_fresh_loan_overdue_witness :
    months_between ⟨2024, 6, 5⟩ ⟨2024, 6, 20⟩ =
      ((2024 : ℤ) - 2024) * 12 + ((6 : ℤ) - 6) + 1 ∧
    calculateEmisElapsed
      ⟨"w10", 1000, 1000, 12, "BANK", "MONTHLY", some ⟨2024, 6, 5⟩,
        some 12, some 90, []⟩ ⟨2024, 6, 20⟩ = 1 ∧
    calculateEmisOverdue
      ⟨"w10", 1000, 1000, 12, "BANK", "MONTHLY", some ⟨2024, 6, 5⟩,
        some 12, some 90, []⟩ ⟨2024, 6, 20⟩ = 1 :=
  claim10_fresh_loan_overdue _ ⟨2024, 6, 20⟩ ⟨2024, 6, 5⟩ rfl rfl rfl rfl rfl
